import Mathlib

/-!
Verification of the curvature-tensor module (einsteinpy.symbolic: ricci.py, weyl.py).

Shallow embedding conventions:
* Symbolic sympy expressions are modelled as elements of a field `α`
  (witnesses use `ℚ`); equality in `α` is symbolic equality after
  simplification, so `sympy.simplify` is the identity on `α`.
* Python exceptions are modelled by `PyErr`; every constructor of `PyErr`
  corresponds to a Python exception class deriving from `Exception`.
* Fallible calls return `Except PyErr _`.
* sympy arrays of statically unknown rank (as passed to the raw
  constructors) are modelled by the nested-list tree `SymArr`; arrays of
  known rank inside the derivation chain are modelled as functions over
  `Fin n` (`Matrix` for rank 2).
* The external collaborators (`MetricTensor`, `ChristoffelSymbols`,
  `RiemannCurvatureTensor`, `Tensor`, `_change_config`, the symbolic
  engine) are not part of the two source files; they are modelled from the
  spec, with the genuinely symbolic parts (Christoffel/Riemann arrays,
  which need differentiation) supplied by an explicit engine parameter
  `SymEngine`.
-/

/-- Python exception values. Every constructor models a built-in Python
exception class that derives from `Exception`. -/
inductive PyErr where
  | typeError : String → PyErr
  | valueError : String → PyErr
  | exception : String → PyErr
  | attributeError : String → PyErr
deriving DecidableEq, Repr

/-- A sympy `Array` (or nested list) of arbitrary rank with entries in `α`:
either a scalar or a list of sub-arrays. -/
inductive SymArr (α : Type) where
  | scalar : α → SymArr α
  | arr : List (SymArr α) → SymArr α

/-- The shape of a sympy array, read off the nesting structure (the first
child determines the inner shape, as in a well-formed rectangular array). -/
def SymArr.shape {α : Type} : SymArr α → List Nat
  | .scalar _ => []
  | .arr [] => [0]
  | .arr (x :: xs) => (xs.length + 1) :: x.shape

/-- The rank of a sympy array: length of its shape. -/
def SymArr.rank {α : Type} (a : SymArr α) : Nat := a.shape.length

/-- Build a rank-2 sympy array from a function on indices. -/
def toSymArr2 {α : Type} {p q : ℕ} (f : Fin p → Fin q → α) : SymArr α :=
  .arr (List.ofFn fun i => .arr (List.ofFn fun j => .scalar (f i j)))

/-- Build a rank-4 sympy array from a function on indices. -/
def toSymArr4 {α : Type} {p q r s : ℕ} (f : Fin p → Fin q → Fin r → Fin s → α) : SymArr α :=
  .arr (List.ofFn fun i => .arr (List.ofFn fun j =>
    .arr (List.ofFn fun k => .arr (List.ofFn fun l => .scalar (f i j k l)))))

/-- The `syms` argument as a Python value: the constructors check it with
`isinstance(syms, (list, tuple))`, so what matters is whether it is a
`list`, a `tuple`, or any other Python object. -/
inductive PyVal where
  | pyList : List String → PyVal
  | pyTuple : List String → PyVal
  | pyOther : String → PyVal

/-- Whether the value passes `isinstance(syms, (list, tuple))`. -/
def PyVal.isSeq : PyVal → Bool
  | .pyList _ => true
  | .pyTuple _ => true
  | .pyOther _ => false

/-- The elements of a list-or-tuple value (junk `[]` otherwise). -/
def PyVal.elems : PyVal → List String
  | .pyList xs => xs
  | .pyTuple xs => xs
  | .pyOther _ => []

/-- A raw constructed tensor object, as stored by `__init__`: the array,
the configuration string, the symbols, `dims = len(syms)` and the optional
parent metric (type parameter `μ`). -/
structure RawTensor (α : Type) (μ : Type) where
  arr : SymArr α
  config : String
  syms : List String
  dims : Nat
  parent_metric : Option μ

/-- `RicciTensor.__init__` (ricci.py): after the external
`Tensor.__init__` stores the (well-typed) array and configuration, the
symbols must be a list or tuple (`TypeError` otherwise) and the
configuration must have length equal to the declared order 2
(`ValueError` otherwise), checked in that order. -/
def RicciTensor.init {α μ : Type} (arr : SymArr α) (syms : PyVal) (config : String)
    (parent_metric : Option μ) : Except PyErr (RawTensor α μ) :=
  match syms with
  | .pyList xs => if config.length = 2 then .ok ⟨arr, config, xs, xs.length, parent_metric⟩
      else .error (.valueError "config should be of length 2")
  | .pyTuple xs => if config.length = 2 then .ok ⟨arr, config, xs, xs.length, parent_metric⟩
      else .error (.valueError "config should be of length 2")
  | .pyOther _ => .error (.typeError "syms should be a list or tuple")

/-- `WeylTensor.__init__` (weyl.py): identical validation pattern with
declared order 4. No check relates the rank of `arr` to the length of
`config`. -/
def WeylTensor.init {α μ : Type} (arr : SymArr α) (syms : PyVal) (config : String)
    (parent_metric : Option μ) : Except PyErr (RawTensor α μ) :=
  match syms with
  | .pyList xs => if config.length = 4 then .ok ⟨arr, config, xs, xs.length, parent_metric⟩
      else .error (.valueError "config should be of length 4")
  | .pyTuple xs => if config.length = 4 then .ok ⟨arr, config, xs, xs.length, parent_metric⟩
      else .error (.valueError "config should be of length 4")
  | .pyOther _ => .error (.typeError "syms should be a list or tuple")

/-- Computable matrix inverse: in a field, `sympy`'s exact matrix inverse
is `det⁻¹ • adjugate` (equal to Mathlib's `A⁻¹`, see `matInv_eq_inv`). -/
def matInv {n : ℕ} {α : Type} [Field α] (A : Matrix (Fin n) (Fin n) α) :
    Matrix (Fin n) (Fin n) α :=
  (A.det)⁻¹ • A.adjugate

theorem matInv_eq_inv {n : ℕ} {α : Type} [Field α] (A : Matrix (Fin n) (Fin n) α) :
    matInv A = A⁻¹ := by
  rw [matInv, Matrix.inv_def, Ring.inverse_eq_inv]

/-- Modelled from the spec: the external `MetricTensor` class — a symmetric
rank-2 tensor with an index-configuration string ("ll" covariant or "uu"
contravariant), coordinate symbols (whose count is the dimension `n`, the
code's `dims = len(syms)`), and an `inv()` method returning the inverse
matrix with flipped configuration. -/
structure MetricTensor (n : ℕ) (α : Type) where
  arr : Matrix (Fin n) (Fin n) α
  syms : Fin n → String
  config : String

/-- Modelled from the spec: `MetricTensor.inv()` returns the inverse
metric with the opposite index configuration. -/
def MetricTensor.inv {n : ℕ} {α : Type} [Field α] (m : MetricTensor n α) :
    MetricTensor n α :=
  ⟨matInv m.arr, m.syms, if m.config = "uu" then "ll" else "uu"⟩

/-- The fully covariant matrix of a metric: the stored matrix, inverted
first when the metric is stored fully contravariant (`config == "uu"`). -/
def covariantForm {n : ℕ} {α : Type} [Field α] (m : MetricTensor n α) :
    Matrix (Fin n) (Fin n) α :=
  if m.config = "uu" then matInv m.arr else m.arr

/-- Modelled from the spec: the per-axis operation of the external
`_change_config` index raising/lowering utility. Lowering an upper index
contracts with the covariant metric `gc`; raising a lower index contracts
with its inverse; an unchanged index is untouched (identity). -/
def axOp {n : ℕ} {α : Type} [Field α] (gc : Matrix (Fin n) (Fin n) α)
    (oldc newc : Char) : Matrix (Fin n) (Fin n) α :=
  if oldc = 'u' ∧ newc = 'l' then gc
  else if oldc = 'l' ∧ newc = 'u' then matInv gc
  else 1

/-- Modelled from the spec: `_change_config` on a rank-2 array. Each axis
is contracted with the matrix chosen by `axOp`; for configuration strings
that are not two characters long (impossible for validated tensors) the
array is returned unchanged. -/
def changeConfig2core {n : ℕ} {α : Type} [Field α] (m : MetricTensor n α)
    (M : Matrix (Fin n) (Fin n) α) (oldc newc : String) :
    Matrix (Fin n) (Fin n) α :=
  match oldc.data, newc.data with
  | [a, b], [a2, b2] =>
      axOp (covariantForm m) a a2 * M * (axOp (covariantForm m) b b2).transpose
  | _, _ => M

/-- Modelled from the spec: `_change_config` on a rank-4 array (same
per-axis contraction scheme as the rank-2 case). -/
def changeConfig4core {n : ℕ} {α : Type} [Field α] (m : MetricTensor n α)
    (T : Fin n → Fin n → Fin n → Fin n → α) (oldc newc : String) :
    Fin n → Fin n → Fin n → Fin n → α :=
  match oldc.data, newc.data with
  | [a, b, c, d], [a2, b2, c2, d2] =>
      fun i j k l => ∑ p, ∑ q, ∑ r, ∑ s,
        axOp (covariantForm m) a a2 i p * axOp (covariantForm m) b b2 j q *
        axOp (covariantForm m) c c2 k r * axOp (covariantForm m) d d2 l s *
        T p q r s
  | _, _ => T

/-- Modelled from the spec: the symbolic engine supplying the genuinely
symbolic computations this module delegates to — the Christoffel symbols
of a metric and the Riemann curvature array built from Christoffel
symbols (both need differentiation, which the module itself never
performs). The embedded derivations are parametric in this engine. -/
structure SymEngine (n : ℕ) (α : Type) where
  christoffelFromMetric : MetricTensor n α → (Fin n → Fin n → Fin n → α)
  riemannFromChristoffelArr :
    (Fin n → Fin n → Fin n → α) → (Fin n → Fin n → Fin n → Fin n → α)

/-- Modelled from the spec: the external `ChristoffelSymbols` class
(rank-3 array, configuration, symbols, parent metric). -/
structure ChristoffelSymbols (n : ℕ) (α : Type) where
  arr : Fin n → Fin n → Fin n → α
  syms : Fin n → String
  config : String
  parent_metric : Option (MetricTensor n α)

/-- Modelled from the spec: `ChristoffelSymbols.from_metric` computes the
connection coefficients of the metric (via the engine) with the input
metric as parent; the standard configuration is "ull". -/
def ChristoffelSymbols.from_metric {n : ℕ} {α : Type} (E : SymEngine n α)
    (metric : MetricTensor n α) : ChristoffelSymbols n α :=
  ⟨E.christoffelFromMetric metric, metric.syms, "ull", some metric⟩

/-- Modelled from the spec: the external `RiemannCurvatureTensor` class
(rank-4 array, configuration, symbols, parent metric). -/
structure RiemannCurvatureTensor (n : ℕ) (α : Type) where
  arr : Fin n → Fin n → Fin n → Fin n → α
  syms : Fin n → String
  config : String
  parent_metric : Option (MetricTensor n α)

/-- Modelled from the spec: `RiemannCurvatureTensor.from_christoffels`
builds the curvature array from Christoffel symbols (via the engine) in
the canonical configuration "ulll", inheriting the Christoffel symbols'
parent metric when none is supplied. -/
def RiemannCurvatureTensor.from_christoffels {n : ℕ} {α : Type} (E : SymEngine n α)
    (chris : ChristoffelSymbols n α) (parent_metric : Option (MetricTensor n α)) :
    RiemannCurvatureTensor n α :=
  ⟨E.riemannFromChristoffelArr chris.arr, chris.syms, "ulll",
    match parent_metric with
    | none => chris.parent_metric
    | some m => some m⟩

/-- Modelled from the spec: `RiemannCurvatureTensor.from_metric` builds
the Christoffel symbols of the metric and delegates to
`from_christoffels` (so the result has configuration "ulll" and the input
metric as parent). -/
def RiemannCurvatureTensor.from_metric {n : ℕ} {α : Type} (E : SymEngine n α)
    (metric : MetricTensor n α) : RiemannCurvatureTensor n α :=
  RiemannCurvatureTensor.from_christoffels E (ChristoffelSymbols.from_metric E metric) none

/-- Modelled from the spec: `RiemannCurvatureTensor.change_config`
resolves the metric (explicit argument, else stored parent metric, else
an Exception-kind failure) and delegates raising/lowering to
`_change_config`, returning a new tensor with the new configuration and
the resolved metric as parent. -/
def RiemannCurvatureTensor.change_config {n : ℕ} {α : Type} [Field α]
    (t : RiemannCurvatureTensor n α) (newconfig : String)
    (metric : Option (MetricTensor n α)) :
    Except PyErr (RiemannCurvatureTensor n α) :=
  match (match metric with | none => t.parent_metric | some m => some m) with
  | none => .error (.exception "Parent Metric not found, cannot do configuration change")
  | some m => .ok ⟨changeConfig4core m t.arr t.config newconfig, t.syms, newconfig, some m⟩

/-- `tensorcontraction(arr, (0, 2))` on a rank-4 array: contract the first
and third axes, leaving the second and fourth. -/
def contract02 {n : ℕ} {α : Type} [Field α]
    (T : Fin n → Fin n → Fin n → Fin n → α) : Matrix (Fin n) (Fin n) α :=
  Matrix.of fun k m => ∑ i, T i k i m

/-- `tensorcontraction(arr, (0, 1))` on a rank-2 array: the full trace. -/
def contract01 {n : ℕ} {α : Type} [Field α] (M : Matrix (Fin n) (Fin n) α) : α :=
  ∑ i, M i i

/-- The `RicciTensor` class (ricci.py): rank-2 array, coordinate symbols,
index configuration, optional parent metric. -/
structure RicciTensor (n : ℕ) (α : Type) where
  arr : Matrix (Fin n) (Fin n) α
  syms : Fin n → String
  config : String
  parent_metric : Option (MetricTensor n α)

/-- `RicciTensor.change_config` (ricci.py): resolve the metric (explicit
argument, else stored parent metric, else raise `Exception`), delegate to
the external `_change_config`, and return a new `RicciTensor` with the new
configuration and the resolved metric as parent. -/
def RicciTensor.change_config {n : ℕ} {α : Type} [Field α] (t : RicciTensor n α)
    (newconfig : String) (metric : Option (MetricTensor n α)) :
    Except PyErr (RicciTensor n α) :=
  match (match metric with | none => t.parent_metric | some m => some m) with
  | none => .error (.exception "Parent Metric not found, cannot do configuration change")
  | some m => .ok ⟨changeConfig2core m t.arr t.config newconfig, t.syms, newconfig, some m⟩

/-- `RicciTensor.from_riemann` (ricci.py): convert the Riemann tensor to
configuration "ulll" when needed, then contract axes (0, 2); the result
has configuration "ll" and, when no parent metric is supplied, inherits
the (possibly converted) Riemann tensor's parent metric. -/
def RicciTensor.from_riemann {n : ℕ} {α : Type} [Field α]
    (riemann : RiemannCurvatureTensor n α)
    (parent_metric : Option (MetricTensor n α)) :
    Except PyErr (RicciTensor n α) := do
  let riemann ← if riemann.config = "ulll" then pure riemann
    else riemann.change_config "ulll" parent_metric
  let parent_metric := match parent_metric with
    | none => riemann.parent_metric
    | some m => some m
  pure ⟨contract02 riemann.arr, riemann.syms, "ll", parent_metric⟩

/-- `RicciTensor.from_christoffels` (ricci.py): build the Riemann tensor
from the Christoffel symbols, then delegate to `from_riemann` with its
default (`None`) parent-metric argument. -/
def RicciTensor.from_christoffels {n : ℕ} {α : Type} [Field α] (E : SymEngine n α)
    (chris : ChristoffelSymbols n α) (parent_metric : Option (MetricTensor n α)) :
    Except PyErr (RicciTensor n α) :=
  RicciTensor.from_riemann
    (RiemannCurvatureTensor.from_christoffels E chris parent_metric) none

/-- `RicciTensor.from_metric` (ricci.py): build the Christoffel symbols of
the metric and delegate to `from_christoffels` with no parent-metric
override. -/
def RicciTensor.from_metric {n : ℕ} {α : Type} [Field α] (E : SymEngine n α)
    (metric : MetricTensor n α) : Except PyErr (RicciTensor n α) :=
  RicciTensor.from_christoffels E (ChristoffelSymbols.from_metric E metric) none

/-- The `RicciScalar` class (ricci.py): a single symbolic expression with
coordinate symbols and an optional parent metric. -/
structure RicciScalar (n : ℕ) (α : Type) where
  expr : α
  syms : Fin n → String
  parent_metric : Option (MetricTensor n α)

/-- `RicciScalar.from_riccitensor` (ricci.py): convert the Ricci tensor to
mixed configuration "ul" when needed, then fully contract axes (0, 1); the
parent metric, when none is supplied, is the (possibly converted) Ricci
tensor's. -/
def RicciScalar.from_riccitensor {n : ℕ} {α : Type} [Field α]
    (riccitensor : RicciTensor n α) (parent_metric : Option (MetricTensor n α)) :
    Except PyErr (RicciScalar n α) := do
  let riccitensor ← if riccitensor.config = "ul" then pure riccitensor
    else riccitensor.change_config "ul" parent_metric
  let parent_metric := match parent_metric with
    | none => riccitensor.parent_metric
    | some m => some m
  pure ⟨contract01 riccitensor.arr, riccitensor.syms, parent_metric⟩

/-- `RicciScalar.from_riemann` (ricci.py): build the Ricci tensor from the
Riemann tensor, then delegate to `from_riccitensor` with its default
(`None`) parent-metric argument. -/
def RicciScalar.from_riemann {n : ℕ} {α : Type} [Field α]
    (riemann : RiemannCurvatureTensor n α)
    (parent_metric : Option (MetricTensor n α)) :
    Except PyErr (RicciScalar n α) := do
  let cg ← RicciTensor.from_riemann riemann parent_metric
  RicciScalar.from_riccitensor cg none

/-- `RicciScalar.from_christoffels` (ricci.py): build the Riemann tensor
from the Christoffel symbols, then delegate to `from_riemann` with its
default (`None`) parent-metric argument. -/
def RicciScalar.from_christoffels {n : ℕ} {α : Type} [Field α] (E : SymEngine n α)
    (chris : ChristoffelSymbols n α) (parent_metric : Option (MetricTensor n α)) :
    Except PyErr (RicciScalar n α) :=
  RicciScalar.from_riemann
    (RiemannCurvatureTensor.from_christoffels E chris parent_metric) none

/-- `RicciScalar.from_metric` (ricci.py): build the Christoffel symbols of
the metric and delegate to `from_christoffels` with no parent-metric
override. -/
def RicciScalar.from_metric {n : ℕ} {α : Type} [Field α] (E : SymEngine n α)
    (metric : MetricTensor n α) : Except PyErr (RicciScalar n α) :=
  RicciScalar.from_christoffels E (ChristoffelSymbols.from_metric E metric) none

/-- The `RicciScalar` class defines no `change_config` method (ricci.py
lines 166-288 contain no such `def`), so in Python the call
`scalar.change_config(...)` fails at attribute lookup with
`AttributeError` — a subclass of `Exception` — before any argument is
examined, and returns nothing. -/
def RicciScalar.change_config_call {n : ℕ} {α : Type} (_s : RicciScalar n α)
    (_newconfig : String) (_metric : Option (MetricTensor n α)) :
    Except PyErr (RicciScalar n α) :=
  .error (.attributeError "RicciScalar object has no attribute change_config")

/-- The first/second/... child of a sympy array (`a[i]`); scalar or
out-of-range access yields junk (`0`-filled scalar). -/
def SymArr.child {α : Type} [Zero α] (a : SymArr α) (i : ℕ) : SymArr α :=
  match a with
  | .scalar x => .scalar x
  | .arr xs => xs.getD i (.scalar 0)

/-- The scalar value of a rank-0 sympy array (junk `0` otherwise). -/
def SymArr.val {α : Type} [Zero α] : SymArr α → α
  | .scalar x => x
  | .arr _ => 0

/-- Entry `a[i, j, k, l]` of a sympy array read as rank 4. -/
def SymArr.get4 {α : Type} [Zero α] {n : ℕ} (a : SymArr α) (i j k l : Fin n) : α :=
  ((((a.child i).child j).child k).child l).val

/-- The `WeylTensor` class (weyl.py): an array (of whatever rank the
producing call supplied — the constructor does not check it), coordinate
symbols, index configuration, optional parent metric. -/
structure WeylTensor (n : ℕ) (α : Type) where
  arr : SymArr α
  syms : Fin n → String
  config : String
  parent_metric : Option (MetricTensor n α)

/-- Modelled from the spec: `_change_config` applied to the stored array
of a Weyl tensor, reading it as a rank-4 array of dimension `n`. -/
def changeConfigSym4 {n : ℕ} {α : Type} [Field α] (m : MetricTensor n α)
    (a : SymArr α) (oldc newc : String) : SymArr α :=
  toSymArr4 (changeConfig4core m (fun i j k l => SymArr.get4 a i j k l) oldc newc)

/-- `WeylTensor.change_config` (weyl.py): resolve the metric (explicit
argument, else stored parent metric, else raise `Exception`), delegate to
the external `_change_config`, and return a new `WeylTensor` with the new
configuration and the resolved metric as parent. -/
def WeylTensor.change_config {n : ℕ} {α : Type} [Field α] (t : WeylTensor n α)
    (newconfig : String) (metric : Option (MetricTensor n α)) :
    Except PyErr (WeylTensor n α) :=
  match (match metric with | none => t.parent_metric | some m => some m) with
  | none => .error (.exception "Parent Metric not found, cannot do configuration change")
  | some m => .ok ⟨changeConfigSym4 m t.arr t.config newconfig, t.syms, newconfig, some m⟩

/-- `sympy.simplify`, modelled as the identity: elements of `α` stand for
symbolic expressions up to simplification. -/
def simplify {α : Type} (x : α) : α := x

/-- One step of the `for t in range(dims ** 4)` loop of
`WeylTensor.from_metric` (weyl.py): step `t` decodes indices
`i = t % n`, `k = t / n % n`, `l = t / n^2 % n`, `m = t / n^3 % n` and
overwrites cell `C[i][k][l][m]` with `form i k l m` (the loop body reads
only the already-computed Riemann/Ricci/scalar/metric data, never `C`). -/
def weylUpd {n : ℕ} {α : Type} (form C : Fin n → Fin n → Fin n → Fin n → α)
    (t : ℕ) : Fin n → Fin n → Fin n → Fin n → α :=
  fun a b c d =>
    if a.val = t % n ∧ b.val = t / n % n ∧ c.val = t / n ^ 2 % n ∧ d.val = t / n ^ 3 % n
    then form a b c d else C a b c d

/-- The whole loop: fold the update over `range(dims ** 4)`, starting from
the `np.zeros`-initialised array. -/
def weylLoop {n : ℕ} {α : Type} [Zero α]
    (form : Fin n → Fin n → Fin n → Fin n → α) : Fin n → Fin n → Fin n → Fin n → α :=
  (List.range (n ^ 4)).foldl (weylUpd form) (fun _ _ _ _ => (0 : α))

/-- The loop body's right-hand side (weyl.py lines 95-110): the Weyl
decomposition combination of the covariant Riemann tensor, the Ricci
tensor, the Ricci scalar and the covariant metric. -/
def weylEntry {n : ℕ} {α : Type} [Field α]
    (Rcov : Fin n → Fin n → Fin n → Fin n → α)
    (Ric : Matrix (Fin n) (Fin n) α) (Rs : α) (g : Matrix (Fin n) (Fin n) α)
    (i k l m : Fin n) : α :=
  Rcov i k l m +
    ((Ric i m * g k l - Ric i l * g k m + Ric k l * g i m - Ric k m * g i l) /
        ((n : α) - 2) +
      Rs * (g i l * g k m - g i m * g k l) / (((n : α) - 1) * ((n : α) - 2)))

/-- `WeylTensor.from_metric` (weyl.py): for dimension above 3, derive the
covariant metric, the Riemann tensor (converted to "llll"), the Ricci
tensor and the Ricci scalar, run the component loop, simplify, and return
the result with configuration "llll" and the input metric as parent; for
dimension exactly 3 return the `sympy.Array(np.zeros((3, 3)))` zero array
with configuration "llll"; otherwise raise `ValueError`. -/
def WeylTensor.from_metric {n : ℕ} {α : Type} [Field α] (E : SymEngine n α)
    (metric : MetricTensor n α) : Except PyErr (WeylTensor n α) :=
  if 3 < n then do
    let metric_cov := if metric.config = "uu" then metric.inv else metric
    let t_riemann := RiemannCurvatureTensor.from_metric E metric
    let t_riemann_cov ← t_riemann.change_config "llll" none
    let t_ricci ← RicciTensor.from_riemann t_riemann none
    let r_scalar ← RicciScalar.from_riccitensor t_ricci none
    let g := metric_cov
    let C := weylLoop (weylEntry t_riemann_cov.arr t_ricci.arr r_scalar.expr g.arr)
    pure ⟨toSymArr4 (fun i k l m => simplify (C i k l m)), metric.syms, "llll", some metric⟩
  else if n = 3 then
    .ok ⟨toSymArr2 (fun (_ : Fin 3) (_ : Fin 3) => (0 : α)), metric.syms, "llll", some metric⟩
  else .error (.valueError "Dimension of the space or space-time should be 3 or more")

/-- A trivial symbolic engine (zero curvature), used by concrete witnesses. -/
def trivEngine (n : ℕ) : SymEngine n ℚ :=
  ⟨fun _ _ _ _ => 0, fun _ _ _ _ _ => 0⟩

/-- The identity metric in dimension `n`, used by concrete witnesses. -/
def idMetric (n : ℕ) : MetricTensor n ℚ :=
  ⟨1, fun _ => "x", "ll"⟩

/-- C1: the claim says `WeylTensor.from_metric` on a 3-dimensional metric
returns a rank-4 zero array of shape 3×3×3×3 with configuration "llll"
and the input metric as parent. The code (weyl.py line 115) instead
builds `sympy.Array(np.zeros((3, 3), dtype=int))`: the configuration and
parent metric are as claimed, but the array is the rank-2 3×3 zero array,
whose shape `[3, 3]` is not `[3, 3, 3, 3]`. -/
theorem weyl_from_metric_dim3_returns_rank2_zero {α : Type} [Field α] :
    ∀ (E : SymEngine 3 α) (M : MetricTensor 3 α),
      WeylTensor.from_metric E M =
        .ok ⟨toSymArr2 (fun (_ : Fin 3) (_ : Fin 3) => (0 : α)), M.syms, "llll", some M⟩ ∧
      SymArr.shape (toSymArr2 (fun (_ : Fin 3) (_ : Fin 3) => (0 : α))) = [3, 3] ∧
      ([3, 3] : List ℕ) ≠ [3, 3, 3, 3] :=
  fun _ _ => ⟨rfl, rfl, by decide⟩

/-- C4: on a `RicciTensor` or `WeylTensor` that stored no parent metric,
`change_config` with no metric argument fails with the `Exception`-kind
"Parent Metric not found" error and returns no new object; on a
`RicciScalar`, which defines no `change_config` method at all, the call
fails at attribute lookup with `AttributeError` (also an
`Exception`-kind error) and likewise returns nothing. -/
theorem change_config_requires_metric {n : ℕ} {α : Type} [Field α] :
    (∀ t : RicciTensor n α, t.parent_metric = none → ∀ cfg,
      t.change_config cfg none =
        .error (.exception "Parent Metric not found, cannot do configuration change")) ∧
    (∀ w : WeylTensor n α, w.parent_metric = none → ∀ cfg,
      w.change_config cfg none =
        .error (.exception "Parent Metric not found, cannot do configuration change")) ∧
    (∀ s : RicciScalar n α, ∀ cfg,
      RicciScalar.change_config_call s cfg none =
        .error (.attributeError "RicciScalar object has no attribute change_config")) := by
  refine ⟨fun t ht cfg => ?_, fun w hw cfg => ?_, fun s cfg => rfl⟩
  · simp [RicciTensor.change_config, ht]
  · simp [WeylTensor.change_config, hw]

theorem change_config_requires_metric_witness :
    RicciTensor.change_config (⟨1, fun _ => "t", "ll", none⟩ : RicciTensor 1 ℚ) "ul" none =
      .error (.exception "Parent Metric not found, cannot do configuration change") ∧
    WeylTensor.change_config
        (⟨SymArr.scalar 0, fun _ => "t", "ulll", none⟩ : WeylTensor 1 ℚ) "llll" none =
      .error (.exception "Parent Metric not found, cannot do configuration change") ∧
    RicciScalar.change_config_call (⟨0, fun _ => "t", none⟩ : RicciScalar 1 ℚ) "ul" none =
      .error (.attributeError "RicciScalar object has no attribute change_config") :=
  ⟨change_config_requires_metric.1 _ rfl "ul",
   change_config_requires_metric.2.1 _ rfl "llll",
   change_config_requires_metric.2.2 _ "ul"⟩

/-- C5: constructing a `RicciTensor` (order 2) or `WeylTensor` (order 4):
a `syms` argument that is not a list or tuple raises `TypeError`; with a
sequence `syms`, a configuration string whose length differs from the
declared order raises `ValueError`; with a sequence `syms` and a
configuration of the right length the constructor succeeds and raises
neither error. -/
theorem constructor_validation {α μ : Type} (arr2 arr4 : SymArr α) (s : PyVal)
    (cfg : String) (pm : Option μ) :
    (s.isSeq = false →
      RicciTensor.init arr2 s cfg pm =
          .error (.typeError "syms should be a list or tuple") ∧
        WeylTensor.init arr4 s cfg pm =
          .error (.typeError "syms should be a list or tuple")) ∧
    (s.isSeq = true → cfg.length ≠ 2 →
      RicciTensor.init arr2 s cfg pm =
        .error (.valueError "config should be of length 2")) ∧
    (s.isSeq = true → cfg.length ≠ 4 →
      WeylTensor.init arr4 s cfg pm =
        .error (.valueError "config should be of length 4")) ∧
    (s.isSeq = true → cfg.length = 2 →
      RicciTensor.init arr2 s cfg pm = .ok ⟨arr2, cfg, s.elems, s.elems.length, pm⟩) ∧
    (s.isSeq = true → cfg.length = 4 →
      WeylTensor.init arr4 s cfg pm = .ok ⟨arr4, cfg, s.elems, s.elems.length, pm⟩) := by
  cases s <;> simp [RicciTensor.init, WeylTensor.init, PyVal.isSeq, PyVal.elems]

theorem constructor_validation_witness :
    PyVal.isSeq (.pyOther "int") = false ∧
    RicciTensor.init (SymArr.scalar (0 : ℚ)) (.pyOther "int") "ll" (none : Option Unit) =
      .error (.typeError "syms should be a list or tuple") ∧
    PyVal.isSeq (.pyList ["t", "x"]) = true ∧
    ("lll".length ≠ 2) ∧
    RicciTensor.init (SymArr.scalar (0 : ℚ)) (.pyList ["t", "x"]) "lll" (none : Option Unit) =
      .error (.valueError "config should be of length 2") ∧
    ("lll".length ≠ 4) ∧
    WeylTensor.init (SymArr.scalar (0 : ℚ)) (.pyList ["t", "x"]) "lll" (none : Option Unit) =
      .error (.valueError "config should be of length 4") ∧
    ("ll".length = 2) ∧
    RicciTensor.init (SymArr.scalar (0 : ℚ)) (.pyList ["t", "x"]) "ll" (none : Option Unit) =
      .ok ⟨SymArr.scalar 0, "ll", ["t", "x"], 2, none⟩ ∧
    ("ulll".length = 4) ∧
    WeylTensor.init (SymArr.scalar (0 : ℚ)) (.pyList ["t", "x"]) "ulll" (none : Option Unit) =
      .ok ⟨SymArr.scalar 0, "ulll", ["t", "x"], 2, none⟩ :=
  ⟨rfl,
   ((constructor_validation (SymArr.scalar 0) (SymArr.scalar 0) (.pyOther "int") "ll"
      none).1 rfl).1,
   rfl, by decide,
   (constructor_validation (SymArr.scalar 0) (SymArr.scalar 0) (.pyList ["t", "x"]) "lll"
      none).2.1 rfl (by decide),
   by decide,
   (constructor_validation (SymArr.scalar 0) (SymArr.scalar 0) (.pyList ["t", "x"]) "lll"
      none).2.2.1 rfl (by decide),
   rfl,
   (constructor_validation (SymArr.scalar 0) (SymArr.scalar 0) (.pyList ["t", "x"]) "ll"
      none).2.2.2.1 rfl rfl,
   rfl,
   (constructor_validation (SymArr.scalar 0) (SymArr.scalar 0) (.pyList ["t", "x"]) "ulll"
      none).2.2.2.2 rfl rfl⟩

/-- C10: `WeylTensor.__init__` never compares the rank of the supplied
array with the length of the configuration string: any array whatsoever,
together with a list-or-tuple `syms` and a length-4 configuration, is
accepted without error — in particular the rank-2 array produced by the
3-dimensional `from_metric` branch paired with "llll". -/
theorem weyl_constructor_accepts_any_rank {α μ : Type} (arr : SymArr α) (s : PyVal)
    (cfg : String) (pm : Option μ) (hs : s.isSeq = true) (hc : cfg.length = 4) :
    WeylTensor.init arr s cfg pm = .ok ⟨arr, cfg, s.elems, s.elems.length, pm⟩ := by
  cases s <;> simp_all [WeylTensor.init, PyVal.isSeq, PyVal.elems]

theorem weyl_constructor_accepts_any_rank_witness :
    PyVal.isSeq (.pyList ["x", "y", "z"]) = true ∧
    ("llll".length = 4) ∧
    SymArr.rank (toSymArr2 (fun (_ : Fin 3) (_ : Fin 3) => (0 : ℚ))) = 2 ∧
    WeylTensor.init (toSymArr2 (fun (_ : Fin 3) (_ : Fin 3) => (0 : ℚ)))
        (.pyList ["x", "y", "z"]) "llll" (none : Option Unit) =
      .ok ⟨toSymArr2 (fun (_ : Fin 3) (_ : Fin 3) => (0 : ℚ)), "llll", ["x", "y", "z"], 3,
        none⟩ :=
  ⟨rfl, rfl, rfl,
   weyl_constructor_accepts_any_rank (toSymArr2 (fun _ _ => 0)) (.pyList ["x", "y", "z"])
     "llll" none rfl rfl⟩

/-- C7: `RicciTensor.from_riemann` leaves a Riemann tensor already in
configuration "ulll" unconverted and otherwise first converts it to
"ulll" via `change_config` (which uses the supplied parent metric, else
the Riemann tensor's own); the result contracts axes (0, 2) of the
resulting array, always carries configuration "ll", and takes the
supplied parent metric, else the (possibly converted) Riemann tensor's. -/
theorem ricci_from_riemann_contracts {n : ℕ} {α : Type} [Field α]
    (r : RiemannCurvatureTensor n α) (pm : Option (MetricTensor n α)) :
    (r.config = "ulll" →
      RicciTensor.from_riemann r pm =
        .ok ⟨contract02 r.arr, r.syms, "ll",
          match pm with | none => r.parent_metric | some m => some m⟩) ∧
    (r.config ≠ "ulll" →
      RicciTensor.from_riemann r pm =
        (r.change_config "ulll" pm).map fun r2 =>
          ⟨contract02 r2.arr, r2.syms, "ll",
            match pm with | none => r2.parent_metric | some m => some m⟩) := by
  constructor
  · intro h
    simp [RicciTensor.from_riemann, h]
    rfl
  · intro h
    rcases hcc : r.change_config "ulll" pm with e | r2 <;>
      simp [RicciTensor.from_riemann, h, hcc, Except.map]

theorem ricci_from_riemann_contracts_witness :
    (RiemannCurvatureTensor.config
        (⟨fun _ _ _ _ => 0, fun _ => "t", "ulll", none⟩ : RiemannCurvatureTensor 1 ℚ) =
      "ulll") ∧
    RicciTensor.from_riemann
        (⟨fun _ _ _ _ => 0, fun _ => "t", "ulll", none⟩ : RiemannCurvatureTensor 1 ℚ) none =
      .ok ⟨contract02 (fun _ _ _ _ => 0), fun _ => "t", "ll", none⟩ ∧
    (RiemannCurvatureTensor.config
        (⟨fun _ _ _ _ => 0, fun _ => "t", "llll", some (idMetric 1)⟩ :
          RiemannCurvatureTensor 1 ℚ) ≠
      "ulll") ∧
    RicciTensor.from_riemann
        (⟨fun _ _ _ _ => 0, fun _ => "t", "llll", some (idMetric 1)⟩ :
          RiemannCurvatureTensor 1 ℚ) none =
      (RiemannCurvatureTensor.change_config
          (⟨fun _ _ _ _ => 0, fun _ => "t", "llll", some (idMetric 1)⟩ :
            RiemannCurvatureTensor 1 ℚ) "ulll" none).map
        (fun r2 => ⟨contract02 r2.arr, r2.syms, "ll", r2.parent_metric⟩) :=
  ⟨rfl,
   (ricci_from_riemann_contracts _ none).1 rfl,
   by decide,
   (ricci_from_riemann_contracts _ none).2 (by decide)⟩

/-- C8: `RicciScalar.from_riccitensor` leaves a Ricci tensor already in
mixed configuration "ul" unconverted and otherwise first converts it to
"ul" via `change_config` (with the supplied parent metric); the stored
scalar expression is the full contraction of axes (0, 1) — the trace — of
the resulting array. -/
theorem ricci_scalar_from_riccitensor_traces {n : ℕ} {α : Type} [Field α]
    (t : RicciTensor n α) (pm : Option (MetricTensor n α)) :
    (t.config = "ul" →
      RicciScalar.from_riccitensor t pm =
        .ok ⟨contract01 t.arr, t.syms,
          match pm with | none => t.parent_metric | some m => some m⟩) ∧
    (t.config ≠ "ul" →
      RicciScalar.from_riccitensor t pm =
        (t.change_config "ul" pm).map fun t2 =>
          ⟨contract01 t2.arr, t2.syms,
            match pm with | none => t2.parent_metric | some m => some m⟩) := by
  constructor
  · intro h
    simp [RicciScalar.from_riccitensor, h]
    rfl
  · intro h
    rcases hcc : t.change_config "ul" pm with e | t2 <;>
      simp [RicciScalar.from_riccitensor, h, hcc, Except.map]

theorem ricci_scalar_from_riccitensor_traces_witness :
    (RicciTensor.config (⟨1, fun _ => "t", "ul", none⟩ : RicciTensor 1 ℚ) = "ul") ∧
    RicciScalar.from_riccitensor (⟨1, fun _ => "t", "ul", none⟩ : RicciTensor 1 ℚ) none =
      .ok ⟨contract01 (1 : Matrix (Fin 1) (Fin 1) ℚ), fun _ => "t", none⟩ ∧
    (RicciTensor.config (⟨1, fun _ => "t", "ll", some (idMetric 1)⟩ : RicciTensor 1 ℚ) ≠
      "ul") ∧
    RicciScalar.from_riccitensor
        (⟨1, fun _ => "t", "ll", some (idMetric 1)⟩ : RicciTensor 1 ℚ) none =
      (RicciTensor.change_config
          (⟨1, fun _ => "t", "ll", some (idMetric 1)⟩ : RicciTensor 1 ℚ) "ul" none).map
        (fun t2 => ⟨contract01 t2.arr, t2.syms, t2.parent_metric⟩) :=
  ⟨rfl,
   (ricci_scalar_from_riccitensor_traces _ none).1 rfl,
   by decide,
   (ricci_scalar_from_riccitensor_traces _ none).2 (by decide)⟩

/-- Follows the spec's words (claim C3): the full trace — contraction of
axes (0, 1) — of `RicciTensor.from_metric(metric)` converted to mixed
configuration "ul". -/
def ricciScalarViaTensor {n : ℕ} {α : Type} [Field α] (E : SymEngine n α)
    (metric : MetricTensor n α) : Except PyErr α := do
  let rt ← RicciTensor.from_metric E metric
  let rt2 ← rt.change_config "ul" none
  pure (contract01 rt2.arr)

/-- C3: for every metric, the expression stored by
`RicciScalar.from_metric(metric)` equals the trace of
`RicciTensor.from_metric(metric)` converted to mixed configuration "ul":
the direct and via-tensor derivation paths agree symbolically. -/
theorem ricci_scalar_paths_agree {n : ℕ} {α : Type} [Field α] (E : SymEngine n α)
    (M : MetricTensor n α) :
    (RicciScalar.from_metric E M).map RicciScalar.expr = ricciScalarViaTensor E M := rfl

theorem list_len2 {γ : Type} {l : List γ} (h : l.length = 2) : ∃ x y, l = [x, y] := by
  rcases l with _ | ⟨x, _ | ⟨y, _ | ⟨z, t⟩⟩⟩
  · simp at h
  · simp at h
  · exact ⟨x, y, rfl⟩
  · simp at h

theorem axOp_inv {n : ℕ} {α : Type} [Field α] {gc : Matrix (Fin n) (Fin n) α}
    (hdet : IsUnit gc.det) (x y : Char) : axOp gc x y * axOp gc y x = 1 := by
  by_cases hul : x = 'u' ∧ y = 'l'
  · obtain ⟨h1, h2⟩ := hul
    subst h1; subst h2
    have e1 : axOp gc 'u' 'l' = gc := by
      unfold axOp; rw [if_pos ⟨rfl, rfl⟩]
    have e2 : axOp gc 'l' 'u' = matInv gc := by
      unfold axOp; rw [if_neg (by decide), if_pos ⟨rfl, rfl⟩]
    rw [e1, e2, matInv_eq_inv]
    exact Matrix.mul_nonsing_inv _ hdet
  · by_cases hlu : x = 'l' ∧ y = 'u'
    · obtain ⟨h1, h2⟩ := hlu
      subst h1; subst h2
      have e1 : axOp gc 'l' 'u' = matInv gc := by
        unfold axOp; rw [if_neg (by decide), if_pos ⟨rfl, rfl⟩]
      have e2 : axOp gc 'u' 'l' = gc := by
        unfold axOp; rw [if_pos ⟨rfl, rfl⟩]
      rw [e1, e2, matInv_eq_inv]
      exact Matrix.nonsing_inv_mul _ hdet
    · have e1 : axOp gc x y = 1 := by
        unfold axOp; rw [if_neg hul, if_neg hlu]
      have e2 : axOp gc y x = 1 := by
        unfold axOp
        rw [if_neg (fun h => hlu ⟨h.2, h.1⟩), if_neg (fun h => hul ⟨h.2, h.1⟩)]
      rw [e1, e2, one_mul]

theorem changeConfig2core_roundtrip {n : ℕ} {α : Type} [Field α] (m : MetricTensor n α)
    (hdet : IsUnit (covariantForm m).det) (M : Matrix (Fin n) (Fin n) α)
    (a b a2 b2 : Char) :
    changeConfig2core m (changeConfig2core m M (String.mk [a, b]) (String.mk [a2, b2]))
      (String.mk [a2, b2]) (String.mk [a, b]) = M := by
  show axOp (covariantForm m) a2 a *
      (axOp (covariantForm m) a a2 * M * (axOp (covariantForm m) b b2).transpose) *
      (axOp (covariantForm m) b2 b).transpose = M
  have hA : axOp (covariantForm m) a2 a * axOp (covariantForm m) a a2 = 1 :=
    axOp_inv hdet a2 a
  have hB : axOp (covariantForm m) b2 b * axOp (covariantForm m) b b2 = 1 :=
    axOp_inv hdet b2 b
  simp only [Matrix.mul_assoc]
  rw [← Matrix.transpose_mul, hB, Matrix.transpose_one, Matrix.mul_one,
    ← Matrix.mul_assoc, hA, Matrix.one_mul]

/-- C9: converting a `RicciTensor` that holds a (nonsingular) parent
metric to any new configuration with `change_config` and then converting
the result back to the original configuration — the stored metric is used
both times — reproduces the original tensor exactly. -/
theorem ricci_change_config_roundtrip {n : ℕ} {α : Type} [Field α]
    (T : RicciTensor n α) (g : MetricTensor n α) (newconfig : String)
    (hp : T.parent_metric = some g) (h1 : T.config.length = 2)
    (h2 : newconfig.length = 2) (hdet : IsUnit (covariantForm g).det) :
    (T.change_config newconfig none).bind (fun T2 => T2.change_config T.config none) =
      .ok T := by
  obtain ⟨arr, syms, cfg, pmet⟩ := T
  simp only at hp h1 ⊢
  subst hp
  obtain ⟨cdata⟩ := cfg
  obtain ⟨ndata⟩ := newconfig
  obtain ⟨a, b, hab⟩ := list_len2 (l := cdata) h1
  obtain ⟨a2, b2, hab2⟩ := list_len2 (l := ndata) h2
  subst hab
  subst hab2
  show Except.ok
      (⟨changeConfig2core g (changeConfig2core g arr ⟨[a, b]⟩ ⟨[a2, b2]⟩) ⟨[a2, b2]⟩
          ⟨[a, b]⟩, syms, ⟨[a, b]⟩, some g⟩ : RicciTensor n α) =
    Except.ok ⟨arr, syms, ⟨[a, b]⟩, some g⟩
  rw [changeConfig2core_roundtrip g hdet arr a b a2 b2]

theorem ricci_change_config_roundtrip_witness :
    (RicciTensor.parent_metric
        (⟨1, fun _ => "t", "ll", some (idMetric 2)⟩ : RicciTensor 2 ℚ) =
      some (idMetric 2)) ∧
    ("ll".length = 2) ∧ ("uu".length = 2) ∧
    IsUnit (covariantForm (idMetric 2)).det ∧
    (RicciTensor.change_config
        (⟨1, fun _ => "t", "ll", some (idMetric 2)⟩ : RicciTensor 2 ℚ) "uu" none).bind
      (fun T2 => T2.change_config "ll" none) =
      .ok ⟨1, fun _ => "t", "ll", some (idMetric 2)⟩ := by
  have hdet : IsUnit (covariantForm (idMetric 2)).det := by
    simp [covariantForm, idMetric]
  exact ⟨rfl, rfl, rfl, hdet,
    ricci_change_config_roundtrip _ _ _ rfl rfl rfl hdet⟩

theorem weylFold_persist {n : ℕ} {α : Type} (form : Fin n → Fin n → Fin n → Fin n → α)
    (a b c d : Fin n) :
    ∀ (ts : List ℕ) (C : Fin n → Fin n → Fin n → Fin n → α),
      C a b c d = form a b c d →
      (ts.foldl (weylUpd form) C) a b c d = form a b c d := by
  intro ts
  induction ts with
  | nil => intro C h; exact h
  | cons t rest ih =>
    intro C h
    show (List.foldl (weylUpd form) (weylUpd form C t) rest) a b c d = form a b c d
    refine ih _ ?_
    unfold weylUpd
    split
    · rfl
    · exact h

theorem weylFold_hit {n : ℕ} {α : Type} (form : Fin n → Fin n → Fin n → Fin n → α)
    (a b c d : Fin n) (t0 : ℕ)
    (hcond : a.val = t0 % n ∧ b.val = t0 / n % n ∧ c.val = t0 / n ^ 2 % n ∧
      d.val = t0 / n ^ 3 % n) :
    ∀ (ts : List ℕ) (C : Fin n → Fin n → Fin n → Fin n → α), t0 ∈ ts →
      (ts.foldl (weylUpd form) C) a b c d = form a b c d := by
  intro ts
  induction ts with
  | nil => intro C h; cases h
  | cons t rest ih =>
    intro C hmem
    rcases List.mem_cons.mp hmem with heq | hrest
    · subst heq
      have hstep : (weylUpd form C t0) a b c d = form a b c d := by
        unfold weylUpd
        rw [if_pos hcond]
      show (List.foldl (weylUpd form) (weylUpd form C t0) rest) a b c d = form a b c d
      exact weylFold_persist form a b c d rest _ hstep
    · exact ih _ hrest

theorem fin_encode_lt {n : ℕ} (a b c d : Fin n) :
    a.val + n * (b.val + n * (c.val + n * d.val)) < n ^ 4 := by
  have h3 : c.val + n * d.val < n * n := by
    have hc := c.isLt
    calc c.val + n * d.val < n + n * d.val := by omega
    _ = n * (d.val + 1) := by ring
    _ ≤ n * n := Nat.mul_le_mul_left n d.isLt
  have h2 : b.val + n * (c.val + n * d.val) < n * (n * n) := by
    have hb := b.isLt
    calc b.val + n * (c.val + n * d.val) < n + n * (c.val + n * d.val) := by omega
    _ = n * ((c.val + n * d.val) + 1) := by ring
    _ ≤ n * (n * n) := Nat.mul_le_mul_left n h3
  have ha := a.isLt
  calc a.val + n * (b.val + n * (c.val + n * d.val))
      < n + n * (b.val + n * (c.val + n * d.val)) := by omega
  _ = n * ((b.val + n * (c.val + n * d.val)) + 1) := by ring
  _ ≤ n * (n * (n * n)) := Nat.mul_le_mul_left n h2
  _ = n ^ 4 := by ring

theorem fin_decode {n : ℕ} (a b c d : Fin n) :
    a.val = (a.val + n * (b.val + n * (c.val + n * d.val))) % n ∧
    b.val = (a.val + n * (b.val + n * (c.val + n * d.val))) / n % n ∧
    c.val = (a.val + n * (b.val + n * (c.val + n * d.val))) / n ^ 2 % n ∧
    d.val = (a.val + n * (b.val + n * (c.val + n * d.val))) / n ^ 3 % n := by
  have hn : 0 < n := a.pos
  have hdiv1 : (a.val + n * (b.val + n * (c.val + n * d.val))) / n =
      b.val + n * (c.val + n * d.val) := by
    rw [Nat.add_mul_div_left _ _ hn, Nat.div_eq_of_lt a.isLt, Nat.zero_add]
  have hdiv2 : (b.val + n * (c.val + n * d.val)) / n = c.val + n * d.val := by
    rw [Nat.add_mul_div_left _ _ hn, Nat.div_eq_of_lt b.isLt, Nat.zero_add]
  have hdiv3 : (c.val + n * d.val) / n = d.val := by
    rw [Nat.add_mul_div_left _ _ hn, Nat.div_eq_of_lt c.isLt, Nat.zero_add]
  have e2 : n ^ 2 = n * n := by ring
  have e3 : n ^ 3 = n * n * n := by ring
  refine ⟨?_, ?_, ?_, ?_⟩
  · rw [Nat.add_mul_mod_self_left, Nat.mod_eq_of_lt a.isLt]
  · rw [hdiv1, Nat.add_mul_mod_self_left, Nat.mod_eq_of_lt b.isLt]
  · rw [e2, ← Nat.div_div_eq_div_mul, hdiv1, hdiv2, Nat.add_mul_mod_self_left,
      Nat.mod_eq_of_lt c.isLt]
  · rw [e3, ← Nat.div_div_eq_div_mul, ← Nat.div_div_eq_div_mul, hdiv1, hdiv2, hdiv3,
      Nat.mod_eq_of_lt d.isLt]

/-- The component loop of `WeylTensor.from_metric` writes every cell
exactly with the loop body's formula: the index decoding
`(t % n, t/n % n, t/n^2 % n, t/n^3 % n)` enumerates every quadruple as
`t` ranges over `range(n^4)`. -/
theorem weylLoop_apply {n : ℕ} {α : Type} [Zero α]
    (form : Fin n → Fin n → Fin n → Fin n → α) (a b c d : Fin n) :
    weylLoop form a b c d = form a b c d := by
  unfold weylLoop
  exact weylFold_hit form a b c d (a.val + n * (b.val + n * (c.val + n * d.val)))
    (fin_decode a b c d) _ _ (List.mem_range.mpr (fin_encode_lt a b c d))

/-- The fully covariant Riemann tensor of the `from_metric` derivation:
the engine-supplied "ulll" curvature array converted to "llll". -/
def weylRcov {n : ℕ} {α : Type} [Field α] (E : SymEngine n α) (M : MetricTensor n α) :
    Fin n → Fin n → Fin n → Fin n → α :=
  changeConfig4core M (E.riemannFromChristoffelArr (E.christoffelFromMetric M))
    "ulll" "llll"

/-- The Ricci tensor of the `from_metric` derivation: contraction of axes
(0, 2) of the unconverted "ulll" Riemann array. -/
def weylRic {n : ℕ} {α : Type} [Field α] (E : SymEngine n α) (M : MetricTensor n α) :
    Matrix (Fin n) (Fin n) α :=
  contract02 (E.riemannFromChristoffelArr (E.christoffelFromMetric M))

/-- The Ricci scalar of the `from_metric` derivation: the trace of the
Ricci tensor converted from "ll" to mixed configuration "ul". -/
def weylRs {n : ℕ} {α : Type} [Field α] (E : SymEngine n α) (M : MetricTensor n α) : α :=
  contract01 (changeConfig2core M (weylRic E M) "ll" "ul")

theorem weyl_from_metric_big {n : ℕ} {α : Type} [Field α] (E : SymEngine n α)
    (M : MetricTensor n α) (h : 3 < n) :
    WeylTensor.from_metric E M =
      .ok ⟨toSymArr4 (weylEntry (weylRcov E M) (weylRic E M) (weylRs E M)
        (covariantForm M)), M.syms, "llll", some M⟩ := by
  have step : WeylTensor.from_metric E M =
      .ok ⟨toSymArr4 (fun i k l m => simplify (weylLoop (weylEntry (weylRcov E M)
          (weylRic E M) (weylRs E M) ((if M.config = "uu" then M.inv else M).arr))
        i k l m)), M.syms, "llll", some M⟩ := by
    unfold WeylTensor.from_metric
    rw [if_pos h]
    rfl
  rw [step]
  have hg : (if M.config = "uu" then M.inv else M).arr = covariantForm M := by
    rw [apply_ite MetricTensor.arr]
    rfl
  rw [hg]
  have harr : (fun i k l m => simplify (weylLoop (weylEntry (weylRcov E M) (weylRic E M)
      (weylRs E M) (covariantForm M)) i k l m)) =
      weylEntry (weylRcov E M) (weylRic E M) (weylRs E M) (covariantForm M) := by
    funext i k l m
    rw [simplify, weylLoop_apply]
  rw [harr]

/-- C2: for dimension at least 4, `WeylTensor.from_metric` returns the
rank-4 array whose (i, k, l, m) component is
`R[i,k,l,m] + (Ric[i,m] g[k,l] - Ric[i,l] g[k,m] + Ric[k,l] g[i,m] -
Ric[k,m] g[i,l]) / (n - 2) + Rscalar (g[i,l] g[k,m] - g[i,m] g[k,l]) /
((n - 1) (n - 2))` for every index quadruple, with `R` the fully
covariant Riemann tensor, `Ric` the Ricci tensor, `Rscalar` the Ricci
scalar and `g` the covariant metric (inverted first when the supplied
metric is fully contravariant), symbolically simplified, with result
configuration "llll" and the input metric as parent. -/
theorem weyl_from_metric_formula {n : ℕ} {α : Type} [Field α] (E : SymEngine n α)
    (M : MetricTensor n α) (h4 : 4 ≤ n) :
    WeylTensor.from_metric E M =
      .ok ⟨toSymArr4 (fun i k l m =>
        weylRcov E M i k l m +
          ((weylRic E M i m * covariantForm M k l -
              weylRic E M i l * covariantForm M k m +
              weylRic E M k l * covariantForm M i m -
              weylRic E M k m * covariantForm M i l) / ((n : α) - 2) +
            weylRs E M * (covariantForm M i l * covariantForm M k m -
              covariantForm M i m * covariantForm M k l) /
              (((n : α) - 1) * ((n : α) - 2)))),
        M.syms, "llll", some M⟩ := by
  rw [weyl_from_metric_big E M (by omega)]
  rfl

theorem weyl_from_metric_formula_witness :
    4 ≤ 4 ∧
    WeylTensor.from_metric (trivEngine 4) (idMetric 4) =
      .ok ⟨toSymArr4 (fun i k l m =>
        weylRcov (trivEngine 4) (idMetric 4) i k l m +
          ((weylRic (trivEngine 4) (idMetric 4) i m * covariantForm (idMetric 4) k l -
              weylRic (trivEngine 4) (idMetric 4) i l * covariantForm (idMetric 4) k m +
              weylRic (trivEngine 4) (idMetric 4) k l * covariantForm (idMetric 4) i m -
              weylRic (trivEngine 4) (idMetric 4) k m * covariantForm (idMetric 4) i l) /
              (((4 : ℕ) : ℚ) - 2) +
            weylRs (trivEngine 4) (idMetric 4) * (covariantForm (idMetric 4) i l *
                covariantForm (idMetric 4) k m -
              covariantForm (idMetric 4) i m * covariantForm (idMetric 4) k l) /
              ((((4 : ℕ) : ℚ) - 1) * (((4 : ℕ) : ℚ) - 2)))),
        (idMetric 4).syms, "llll", some (idMetric 4)⟩ :=
  ⟨by omega, weyl_from_metric_formula (trivEngine 4) (idMetric 4) (by omega)⟩

/-- C6: `WeylTensor.from_metric` fails with the `ValueError`-kind
dimension error exactly when the dimension is below 3, and for dimension
3 or more it succeeds, raising no error at all. -/
theorem weyl_from_metric_dimension_check {n : ℕ} {α : Type} [Field α]
    (E : SymEngine n α) (M : MetricTensor n α) :
    (n < 3 → WeylTensor.from_metric E M =
      .error (.valueError "Dimension of the space or space-time should be 3 or more")) ∧
    (3 ≤ n → ∃ W, WeylTensor.from_metric E M = .ok W) := by
  constructor
  · intro h
    unfold WeylTensor.from_metric
    rw [if_neg (by omega), if_neg (by omega)]
  · intro h
    rcases Nat.lt_or_ge 3 n with hgt | hle
    · exact ⟨_, weyl_from_metric_big E M hgt⟩
    · have h3 : n = 3 := by omega
      subst h3
      refine ⟨⟨toSymArr2 (fun (_ : Fin 3) (_ : Fin 3) => (0 : α)), M.syms, "llll",
        some M⟩, ?_⟩
      rfl

theorem weyl_from_metric_dimension_check_witness :
    (2 < 3) ∧
    WeylTensor.from_metric (trivEngine 2) (idMetric 2) =
      .error (.valueError "Dimension of the space or space-time should be 3 or more") ∧
    (3 ≤ 3) ∧ (∃ W, WeylTensor.from_metric (trivEngine 3) (idMetric 3) = .ok W) :=
  ⟨by omega,
   (weyl_from_metric_dimension_check (trivEngine 2) (idMetric 2)).1 (by omega),
   by omega,
   (weyl_from_metric_dimension_check (trivEngine 3) (idMetric 3)).2 (by omega)⟩
